import Mathlib

/-
Verification of the anonymization script in
src/convergent/analysis/data/anonymize.py.

The script defines one pure function, `anonymize_value`, which hashes a
string with SHA-256 and renders the digest as lowercase hex, and a driver
that loads `participants.csv`, replaces the `workerid` and `hitId` columns
by their digests, writes `anonymized_participants.csv` (no index column)
and prints a completion message.

The embedding below models SHA-256 (FIPS 180-4) over lists of byte values
(`Nat` < 256), UTF-8 encoding of Lean strings (matching Python
`str.encode()`), and the pandas driver as a pure transformation on an
in-memory table.
-/

set_option maxRecDepth 8000

namespace Anonymize

/-- Right rotation of a 32-bit word represented as a `Nat`. -/
def rotr (n x : Nat) : Nat :=
  ((x >>> n) ||| (x <<< (32 - n))) % 4294967296

/-- SHA-256 choice function. -/
def ch (e f g : Nat) : Nat :=
  (e &&& f) ^^^ ((e ^^^ 4294967295) &&& g)

/-- SHA-256 majority function. -/
def maj (a b c : Nat) : Nat :=
  (a &&& b) ^^^ (a &&& c) ^^^ (b &&& c)

/-- SHA-256 big sigma 0. -/
def bigSigma0 (x : Nat) : Nat := rotr 2 x ^^^ rotr 13 x ^^^ rotr 22 x

/-- SHA-256 big sigma 1. -/
def bigSigma1 (x : Nat) : Nat := rotr 6 x ^^^ rotr 11 x ^^^ rotr 25 x

/-- SHA-256 small sigma 0 (message schedule). -/
def smallSigma0 (x : Nat) : Nat := rotr 7 x ^^^ rotr 18 x ^^^ (x >>> 3)

/-- SHA-256 small sigma 1 (message schedule). -/
def smallSigma1 (x : Nat) : Nat := rotr 17 x ^^^ rotr 19 x ^^^ (x >>> 10)

/-- The 64 SHA-256 round constants of FIPS 180-4, written in decimal. -/
def K : List Nat :=
  [1116352408, 1899447441, 3049323471, 3921009573, 961987163,
   1508970993, 2453635748, 2870763221, 3624381080, 310598401,
   607225278, 1426881987, 1925078388, 2162078206, 2614888103,
   3248222580, 3835390401, 4022224774, 264347078, 604807628,
   770255983, 1249150122, 1555081692, 1996064986, 2554220882,
   2821834349, 2952996808, 3210313671, 3336571891, 3584528711,
   113926993, 338241895, 666307205, 773529912, 1294757372,
   1396182291, 1695183700, 1986661051, 2177026350, 2456956037,
   2730485921, 2820302411, 3259730800, 3345764771, 3516065817,
   3600352804, 4094571909, 275423344, 430227734, 506948616,
   659060556, 883997877, 958139571, 1322822218, 1537002063,
   1747873779, 1955562222, 2024104815, 2227730452, 2361852424,
   2428436474, 2756734187, 3204031479, 3329325298]

/-- The eight words of a SHA-256 working state. -/
structure Hash8 where
  a : Nat
  b : Nat
  c : Nat
  d : Nat
  e : Nat
  f : Nat
  g : Nat
  h : Nat
deriving DecidableEq, Repr

/-- SHA-256 initial hash value of FIPS 180-4, written in decimal. -/
def initH : Hash8 :=
  { a := 1779033703, b := 3144134277, c := 1013904242, d := 2773480762,
    e := 1359893119, f := 2600822924, g := 528734635, h := 1541459225 }

/-- Big-endian 8-byte rendering of a bit-length counter. -/
def lengthBytes (n : Nat) : List Nat :=
  [56, 48, 40, 32, 24, 16, 8, 0].map (fun k => (n >>> k) % 256)

/-- SHA-256 padding: append 0x80, zero bytes to 56 mod 64, then the
bit length as 8 big-endian bytes. -/
def padMessage (ms : List Nat) : List Nat :=
  let L := ms.length
  let k := (119 - L % 64) % 64
  ms ++ (128 :: List.replicate k 0) ++ lengthBytes (8 * L)

/-- Big-endian packing of bytes into 32-bit words, by Horner steps. -/
def bytesToWords : List Nat → List Nat
  | b0 :: b1 :: b2 :: b3 :: rest =>
      (((((b0 <<< 8) ||| b1) <<< 8) ||| b2) <<< 8 ||| b3) :: bytesToWords rest
  | _ => []

/-- Extend the 16-word schedule by one word per fuel step, up to 64. -/
def extendWordsAux : Nat → List Nat → List Nat
  | 0, ws => ws
  | n + 1, ws =>
      let t := ws.length
      let w := (smallSigma1 (ws.getD (t - 2) 0) + ws.getD (t - 7) 0 +
                smallSigma0 (ws.getD (t - 15) 0) + ws.getD (t - 16) 0) % 4294967296
      extendWordsAux n (ws ++ [w])

/-- One SHA-256 compression round; the pair is (schedule word, constant). -/
def compressStep (st : Hash8) (wk : Nat × Nat) : Hash8 :=
  let t1 := (st.h + bigSigma1 st.e + ch st.e st.f st.g + wk.2 + wk.1) % 4294967296
  let t2 := (bigSigma0 st.a + maj st.a st.b st.c) % 4294967296
  { a := (t1 + t2) % 4294967296, b := st.a, c := st.b, d := st.c,
    e := (st.d + t1) % 4294967296, f := st.e, g := st.f, h := st.g }

/-- Process one 64-byte block: schedule, 64 rounds, add back. -/
def processBlock (st : Hash8) (block : List Nat) : Hash8 :=
  let ws := extendWordsAux 48 (bytesToWords block)
  let r := (ws.zip K).foldl compressStep st
  { a := (st.a + r.a) % 4294967296, b := (st.b + r.b) % 4294967296,
    c := (st.c + r.c) % 4294967296, d := (st.d + r.d) % 4294967296,
    e := (st.e + r.e) % 4294967296, f := (st.f + r.f) % 4294967296,
    g := (st.g + r.g) % 4294967296, h := (st.h + r.h) % 4294967296 }

/-- Split a byte list into 64-byte chunks (fuel-driven). -/
def chunksAux : Nat → List Nat → List (List Nat)
  | 0, _ => []
  | _ + 1, [] => []
  | n + 1, l => l.take 64 :: chunksAux n (l.drop 64)

/-- Big-endian bytes of one 32-bit word. -/
def wordBytes (w : Nat) : List Nat :=
  [24, 16, 8, 0].map (fun k => (w >>> k) % 256)

/-- SHA-256 digest (32 bytes) of a byte sequence. -/
def sha256Bytes (ms : List Nat) : List Nat :=
  let padded := padMessage ms
  let st := (chunksAux padded.length padded).foldl processBlock initH
  wordBytes st.a ++ wordBytes st.b ++ wordBytes st.c ++ wordBytes st.d ++
  wordBytes st.e ++ wordBytes st.f ++ wordBytes st.g ++ wordBytes st.h

/-- The sixteen lowercase hexadecimal digit characters, in value order. -/
def hexDigits : List Char := "0123456789abcdef".data

/-- Lowercase hex character of a nibble. -/
def hexChar (n : Nat) : Char := hexDigits.getD n '0'

/-- Two lowercase hex characters of a byte. -/
def byteToHex (b : Nat) : List Char := [hexChar (b / 16), hexChar (b % 16)]

/-- Lowercase hexadecimal rendering of a byte list, as Python hexdigest. -/
def toHexString (bs : List Nat) : String := String.mk (bs.flatMap byteToHex)

/-- UTF-8 encoding of a single code point, as bytes. -/
def utf8EncodeChar (c : Char) : List Nat :=
  let n := c.toNat
  if n < 128 then [n]
  else if n < 2048 then
    [192 ||| (n >>> 6), 128 ||| (n &&& 63)]
  else if n < 65536 then
    [224 ||| (n >>> 12), 128 ||| ((n >>> 6) &&& 63), 128 ||| (n &&& 63)]
  else
    [240 ||| (n >>> 18), 128 ||| ((n >>> 12) &&& 63),
     128 ||| ((n >>> 6) &&& 63), 128 ||| (n &&& 63)]

/-- UTF-8 bytes of a string, matching Python `str.encode()` with the
default encoding. -/
def utf8Bytes (s : String) : List Nat := s.data.flatMap utf8EncodeChar

/-- Function anonymize_value from anonymize.py:
`hashlib.sha256(value.encode()).hexdigest()` — the SHA-256 digest of the
UTF-8 bytes of the input, rendered as lowercase hex. No salt, no key. -/
def anonymize_value (value : String) : String :=
  toHexString (sha256Bytes (utf8Bytes value))

/-!
Driver model. The script body is:

  df = pd.read_csv('participants.csv')
  # df['assignment_id'] = df['assignment_id'].apply(anonymize_value)   (disabled)
  df['workerid'] = df['workerid'].apply(anonymize_value)
  df['hitId'] = df['hitId'].apply(anonymize_value)
  df.to_csv('anonymized_participants.csv', index=False)
  print(...)

A loaded DataFrame is modelled as a header (ordered column names) plus
rows of string cells aligned with the header.
-/

/-- An in-memory table: ordered column names and rows of cells. -/
structure Table where
  header : List String
  rows : List (List String)
deriving DecidableEq, Repr

/-- Transform the cells of one named column in a row:
`df[col] = df[col].apply(f)` restricted to a single row. Cells of other
columns are returned unchanged. -/
def transformRow (f : String → String) (header : List String) (col : String)
    (row : List String) : List String :=
  (header.zip row).map (fun p => if p.1 = col then f p.2 else p.2)

/-- Column assignment `df[col] = df[col].apply(f)`: replace every cell of
column `col` by its image under `f`, leaving all other columns and the
header intact. -/
def applyToColumn (t : Table) (col : String) (f : String → String) : Table :=
  { header := t.header, rows := t.rows.map (transformRow f t.header col) }

/-- The hard-coded input path `participants.csv`. -/
def inputPath : String := "participants.csv"

/-- The hard-coded output path `anonymized_participants.csv`. -/
def outputPath : String := "anonymized_participants.csv"

/-- The single-quote character, U+0027. -/
def squote : Char := Char.ofNat 39

/-- The filename named inside the printed completion message. -/
def messageFilename : String := "anonymized_file.csv"

/-- The completion message printed on success:
Anonymization completed and saved to (quote)anonymized_file.csv(quote). -/
def completionMessage : String :=
  "Anonymization completed and saved to " ++ String.mk [squote] ++
    messageFilename ++ String.mk [squote] ++ "."

/-- One line of CSV output: cells joined by commas. -/
def csvLine (cells : List String) : String := String.intercalate "," cells

/-- Output serialization `df.to_csv(..., index=False)`: header line
first, then one line per row in order, with no row-index column
prepended. -/
def writeCsv (t : Table) : List String :=
  csvLine t.header :: t.rows.map csvLine

/-- The observable effects of one run of the script. -/
structure RunEffects where
  outPath : String
  outTable : Table
  outLines : List String
  consoleOut : List String
deriving DecidableEq, Repr

/-- Whether the assignment_id transformation is enabled. The source line
`df['assignment_id'] = df['assignment_id'].apply(anonymize_value)` is
commented out in the current build: a dead code path. -/
def assignmentIdEnabled : Bool := false

/-- The module driver: given the loaded input table, produce the output
table, the CSV lines written to the output path, and the console output. -/
def run (input : Table) : RunEffects :=
  let df0 := if assignmentIdEnabled
    then applyToColumn input "assignment_id" anonymize_value
    else input
  let df1 := applyToColumn df0 "workerid" anonymize_value
  let df2 := applyToColumn df1 "hitId" anonymize_value
  { outPath := outputPath, outTable := df2, outLines := writeCsv df2,
    consoleOut := [completionMessage] }

/-!
Dynamic-typing model for the failure claim. In Python, `value.encode()`
performs attribute lookup on the runtime value: only `str` values carry
an `encode` method among the value kinds a pandas CSV column can hold
(strings, numbers, and the float NaN used for missing cells), so any
non-string cell raises AttributeError inside `anonymize_value`.
-/

/-- Runtime values a pandas column cell can hold after `read_csv`. -/
inductive PyValue where
  | pyStr : String → PyValue
  | pyInt : Int → PyValue
  | pyNaN : PyValue
  | pyNone : PyValue
deriving DecidableEq, Repr

/-- Whether the runtime value carries an `encode` method: only `str`
does among these kinds. -/
def hasEncode : PyValue → Bool
  | .pyStr _ => true
  | _ => false

/-- Behavior of anonymize_value on a runtime value: attribute lookup of
`encode` succeeds only on strings; otherwise the call raises
AttributeError, modelled as `Except.error`. -/
def anonymizeValueDyn : PyValue → Except String String
  | .pyStr s => Except.ok (anonymize_value s)
  | _ => Except.error "AttributeError"

/-- The substring of `s` between the first pair of single quotes: the
filename a reader extracts from the completion message. -/
def quotedPart (s : String) : String :=
  String.mk (((s.data.dropWhile (fun c => c != squote)).drop 1).takeWhile
    (fun c => c != squote))

/-- The end-to-end scenario input table from the spec. -/
def scenarioInput : Table :=
  { header := ["workerid", "hitId", "score"],
    rows := [["alice", "HIT001", "5"], ["bob", "HIT002", "7"]] }

/-- The expected output of the end-to-end scenario: same header and row
order, score unchanged, identifiers replaced by the SHA-256 hex digests
of alice, HIT001, bob, HIT002. -/
def scenarioExpected : Table :=
  { header := ["workerid", "hitId", "score"],
    rows :=
      [["2bd806c97f0e00af1a1fc3328fa763a9269723c8db8fac4f93af71db186d6e90",
        "dc2c6589e8d10b4c3b068741a804f869ccbd365e242831e9544e9e609bbed2dc",
        "5"],
       ["81b637d8fcd2c6da6359e6963113a1170de795e4b725b84d1e0b4cfd9ec58ce9",
        "f49f24ccb74b3b3545c9adc47a5cb0cd459341fc426a5447d120c65e101bc52b",
        "7"]] }

/-- A small table with an assignment_id column, used to instantiate the
frame and shape theorems on a concrete input. -/
def witnessTable : Table :=
  { header := ["workerid", "hitId", "assignment_id", "score"],
    rows := [["alice", "HIT001", "A1", "5"]] }

/-! Helper lemmas. -/

/-- A getD lookup either returns a list element or the default. -/
lemma getD_mem_or {α : Type} (l : List α) (n : Nat) (d : α) :
    l.getD n d ∈ l ∨ l.getD n d = d := by
  induction l generalizing n with
  | nil => right; exact List.getD_nil
  | cons a l ih =>
    cases n with
    | zero => left; rw [List.getD_cons_zero]; exact List.mem_cons_self a l
    | succ n =>
      rw [List.getD_cons_succ]
      rcases ih n with h | h
      · left; exact List.mem_cons_of_mem a h
      · right; exact h

/-- Every hexChar value is one of the sixteen lowercase hex digits. -/
lemma hexChar_mem (n : Nat) : hexChar n ∈ hexDigits := by
  rcases getD_mem_or hexDigits n (Char.ofNat 48) with h | h
  · exact h
  · unfold hexChar
    rw [h]
    decide

/-- Every character of a hex rendering is a lowercase hex digit. -/
lemma mem_toHexString (bs : List Nat) (c : Char)
    (hc : c ∈ (toHexString bs).data) : c ∈ hexDigits := by
  have hc2 : c ∈ bs.flatMap byteToHex := hc
  rw [List.mem_flatMap] at hc2
  obtain ⟨b, _, hcb⟩ := hc2
  unfold byteToHex at hcb
  rcases List.mem_cons.mp hcb with h | h
  · rw [h]; exact hexChar_mem _
  · rcases List.mem_cons.mp h with h | h
    · rw [h]; exact hexChar_mem _
    · exact absurd h (List.not_mem_nil c)

/-- Every digest string has length 64. -/
lemma anonymize_value_length (s : String) : (anonymize_value s).length = 64 := rfl

/-- Every character of a digest string is a lowercase hex digit. -/
lemma anonymize_value_mem_hex (s : String) (c : Char)
    (hc : c ∈ (anonymize_value s).data) : c ∈ hexDigits :=
  mem_toHexString _ c hc

/-- Length of a transformed row. -/
lemma transformRow_length (f : String → String) (header : List String)
    (col : String) (row : List String) :
    (transformRow f header col row).length = min header.length row.length := by
  unfold transformRow
  rw [List.length_map, List.length_zip]

/-- Cellwise description of a transformed row: a cell changes exactly
when its column name is the targeted one. -/
lemma transformRow_getD (f : String → String) (header : List String)
    (col : String) (row : List String) (j : Nat)
    (hlen : row.length = header.length) (hj : j < header.length) :
    (transformRow f header col row).getD j "" =
      if header.getD j "" = col then f (row.getD j "") else row.getD j "" := by
  have hjr : j < row.length := hlen ▸ hj
  have hjm : j < (transformRow f header col row).length := by
    rw [transformRow_length, hlen, Nat.min_self]; exact hj
  rw [List.getD_eq_getElem _ _ hjm, List.getD_eq_getElem _ _ hj,
    List.getD_eq_getElem _ _ hjr]
  simp only [transformRow, List.getElem_map, List.getElem_zip]

/-! Claim theorems. -/

/-- Claim C1: for the end-to-end scenario with rows
(alice, HIT001, 5) and (bob, HIT002, 7), run produces an output table
with the same header and row order, score unchanged, and workerid/hitId
replaced by the SHA-256 hex digests of alice, HIT001, bob, HIT002. -/
theorem claim_C1 :
    (run scenarioInput).outTable = scenarioExpected ∧
    (run scenarioInput).outLines = writeCsv scenarioExpected := by
  constructor
  · decide
  · decide

/-- Claim C2: anonymize_value is exactly the unsalted, unkeyed SHA-256
digest of the UTF-8 bytes of its input, rendered in hex; the second
conjunct pins the hash to genuine SHA-256 via the FIPS 180-2 test
vector for the string abc. -/
theorem claim_C2 :
    (∀ s, anonymize_value s = toHexString (sha256Bytes (utf8Bytes s))) ∧
    anonymize_value "abc" =
      "ba7816bf8f01cfea414140de5dae2223b00361a396177a9cb410ff61f20015ad" :=
  ⟨fun _ => rfl, by decide⟩

/-- Claim C3: for every string s, anonymize_value s has length exactly
64 and all of its characters are lowercase hex digits 0-9a-f. -/
theorem claim_C3 (s : String) :
    (anonymize_value s).length = 64 ∧
    ∀ c ∈ (anonymize_value s).data, c ∈ hexDigits :=
  ⟨anonymize_value_length s, fun c hc => anonymize_value_mem_hex s c hc⟩

/-- Witness for C3 at the input alice; the second conjunct applies the
membership part to the digit 2, the first character of that digest. -/
theorem claim_C3_witness :
    (anonymize_value "alice").length = 64 ∧ Char.ofNat 50 ∈ hexDigits :=
  ⟨(claim_C3 "alice").1, (claim_C3 "alice").2 (Char.ofNat 50) (by decide)⟩

/-- Claim C4: anonymize_value is deterministic — two calls on identical
input strings yield identical output strings. -/
theorem claim_C4 (s t : String) (h : s = t) :
    anonymize_value s = anonymize_value t := by rw [h]

/-- Witness for C4 at the input alice. -/
theorem claim_C4_witness :
    anonymize_value "alice" = anonymize_value "alice" :=
  claim_C4 "alice" "alice" rfl

/-- Claim C5: after run, every cell of every column other than workerid
and hitId (including assignment_id, whose transformation is disabled) is
unchanged, and the header with its column order is preserved. -/
theorem claim_C5 (t : Table)
    (hwf : ∀ r ∈ t.rows, r.length = t.header.length) :
    (run t).outTable.header = t.header ∧
    ∀ i j, i < t.rows.length → j < t.header.length →
      t.header.getD j "" ≠ "workerid" → t.header.getD j "" ≠ "hitId" →
      ((run t).outTable.rows.getD i []).getD j "" =
        (t.rows.getD i []).getD j "" := by
  refine ⟨rfl, fun i j hi hj hw hh => ?_⟩
  have hrows : (run t).outTable.rows =
      (t.rows.map (transformRow anonymize_value t.header "workerid")).map
        (transformRow anonymize_value t.header "hitId") := rfl
  have hi1 : i <
      ((t.rows.map (transformRow anonymize_value t.header "workerid")).map
        (transformRow anonymize_value t.header "hitId")).length := by
    rw [List.length_map, List.length_map]; exact hi
  rw [hrows, List.getD_eq_getElem _ _ hi1, List.getElem_map, List.getElem_map,
    List.getD_eq_getElem _ _ hi]
  have hr : (t.rows[i]).length = t.header.length :=
    hwf _ (List.getElem_mem hi)
  have h1len : (transformRow anonymize_value t.header "workerid"
      t.rows[i]).length = t.header.length := by
    rw [transformRow_length, hr, Nat.min_self]
  rw [transformRow_getD _ _ _ _ j h1len hj, if_neg hh,
    transformRow_getD _ _ _ _ j hr hj, if_neg hw]

/-- Witness for C5 on a concrete table with an assignment_id column:
the assignment_id cell (column index 2) is unchanged by run. -/
theorem claim_C5_witness :
    (run witnessTable).outTable.header = witnessTable.header ∧
    ((run witnessTable).outTable.rows.getD 0 []).getD 2 "" =
      (witnessTable.rows.getD 0 []).getD 2 "" := by
  have h := claim_C5 witnessTable (by decide)
  exact ⟨h.1, h.2 0 2 (by decide) (by decide) (by decide) (by decide)⟩

/-- Claim C6: run preserves the row count and row order, writes the
header line first in the original field order, each output line i+1 is
the serialization of the transform of input row i, and every output row
has exactly one cell per header column (no row-index column). -/
theorem claim_C6 (t : Table)
    (hwf : ∀ r ∈ t.rows, r.length = t.header.length) :
    (run t).outTable.rows.length = t.rows.length ∧
    (run t).outLines.length = t.rows.length + 1 ∧
    (run t).outLines.getD 0 "" = csvLine t.header ∧
    (∀ i, i < t.rows.length →
      (run t).outLines.getD (i + 1) "" =
        csvLine (transformRow anonymize_value t.header "hitId"
          (transformRow anonymize_value t.header "workerid"
            (t.rows.getD i [])))) ∧
    ∀ r ∈ (run t).outTable.rows, r.length = t.header.length := by
  have hrows : (run t).outTable.rows =
      (t.rows.map (transformRow anonymize_value t.header "workerid")).map
        (transformRow anonymize_value t.header "hitId") := rfl
  have hlen : (run t).outTable.rows.length = t.rows.length := by
    rw [hrows, List.length_map, List.length_map]
  have hlines : (run t).outLines =
      csvLine t.header :: (run t).outTable.rows.map csvLine := rfl
  refine ⟨hlen, ?_, ?_, ?_, ?_⟩
  · rw [hlines]
    simp only [List.length_cons, List.length_map]
    rw [hlen]
  · rw [hlines, List.getD_cons_zero]
  · intro i hi
    rw [hlines, List.getD_cons_succ, hrows]
    have hi2 : i <
        (((t.rows.map (transformRow anonymize_value t.header "workerid")).map
          (transformRow anonymize_value t.header "hitId")).map csvLine).length := by
      rw [List.length_map, List.length_map, List.length_map]; exact hi
    rw [List.getD_eq_getElem _ _ hi2, List.getElem_map, List.getElem_map,
      List.getElem_map, List.getD_eq_getElem _ _ hi]
  · intro r hr
    rw [hrows] at hr
    obtain ⟨r1, hr1, hr1e⟩ := List.mem_map.mp hr
    obtain ⟨r0, hr0, hr0e⟩ := List.mem_map.mp hr1
    have h0 : r0.length = t.header.length := hwf r0 hr0
    have h1 : r1.length = t.header.length := by
      rw [← hr0e, transformRow_length, h0, Nat.min_self]
    rw [← hr1e, transformRow_length, h1, Nat.min_self]

/-- Witness for C6 on a concrete table: counts, the header line, and the
serialized first output line. -/
theorem claim_C6_witness :
    (run witnessTable).outTable.rows.length = witnessTable.rows.length ∧
    (run witnessTable).outLines.length = witnessTable.rows.length + 1 ∧
    (run witnessTable).outLines.getD 0 "" = csvLine witnessTable.header ∧
    (run witnessTable).outLines.getD 1 "" =
      csvLine (transformRow anonymize_value witnessTable.header "hitId"
        (transformRow anonymize_value witnessTable.header "workerid"
          (witnessTable.rows.getD 0 []))) := by
  have h := claim_C6 witnessTable (by decide)
  exact ⟨h.1, h.2.1, h.2.2.1, h.2.2.2.1 0 (by decide)⟩

/-- Claim C8: anonymize_value fails on every non-string runtime value
(such as a NaN placeholder for a missing cell): the value has no encode
method and the call raises AttributeError; strings are the only values
accepted. -/
theorem claim_C8 (v : PyValue) (h : ∀ s, v ≠ PyValue.pyStr s) :
    hasEncode v = false ∧ ∃ e, anonymizeValueDyn v = Except.error e := by
  cases v with
  | pyStr s => exact absurd rfl (h s)
  | pyInt n => exact ⟨rfl, "AttributeError", rfl⟩
  | pyNaN => exact ⟨rfl, "AttributeError", rfl⟩
  | pyNone => exact ⟨rfl, "AttributeError", rfl⟩

/-- Witness for C8 at the NaN placeholder used by pandas for missing
cells. -/
theorem claim_C8_witness :
    hasEncode PyValue.pyNaN = false ∧
    ∃ e, anonymizeValueDyn PyValue.pyNaN = Except.error e :=
  claim_C8 PyValue.pyNaN (fun _ h => PyValue.noConfusion h)

/-- Claim C9: run prints exactly one fixed completion message, and the
filename quoted in that message (anonymized_file.csv) differs from the
output path actually written (anonymized_participants.csv). -/
theorem claim_C9 (t : Table) :
    (run t).consoleOut = [completionMessage] ∧
    quotedPart completionMessage = messageFilename ∧
    (run t).outPath = outputPath ∧
    messageFilename ≠ outputPath :=
  ⟨rfl, by decide, rfl, by decide⟩

/-- Claim C10: anonymize_value is total on strings, always returning a
64-character lowercase hex digest, and on the empty string it returns
the SHA-256 digest of the empty byte sequence, with no special-casing
of empty input. -/
theorem claim_C10 :
    anonymize_value "" =
      "e3b0c44298fc1c149afbf4c8996fb92427ae41e4649b934ca495991b7852b855" ∧
    ∀ s, (anonymize_value s).length = 64 ∧
      ∀ c ∈ (anonymize_value s).data, c ∈ hexDigits :=
  ⟨by decide, fun s =>
    ⟨anonymize_value_length s, fun c hc => anonymize_value_mem_hex s c hc⟩⟩

/-- Witness for C10: the membership part applied at the empty string to
the digit e, the first character of the empty-input digest. -/
theorem claim_C10_witness :
    anonymize_value "" =
      "e3b0c44298fc1c149afbf4c8996fb92427ae41e4649b934ca495991b7852b855" ∧
    (anonymize_value "").length = 64 ∧ Char.ofNat 101 ∈ hexDigits :=
  ⟨claim_C10.1, (claim_C10.2 "").1,
    (claim_C10.2 "").2 (Char.ofNat 101) (by decide)⟩

end Anonymize
